import Mathlib

/-!
Verification of the 3D-shape classifier notebook (`classifier.ipynb`).

The notebook is shallowly embedded: the filesystem consumed by `load_data`
is a record of `listdir` / `isdir` / `isfile` functions, Python dicts are
association lists in insertion order, `torch.save` / `torch.load` act on an
explicit store from path to record, float arithmetic on losses is modelled
by rationals, and the stochastic parts of training (parameter updates,
validation losses, the shuffle of sklearn's `train_test_split`) are
parameters of the embedding, constrained only by the contracts the
libraries document (e.g. the shuffle is a permutation of the indices).
-/

/-- Code-point comparison of char lists: the lexicographic order Python's
`sorted` uses on strings, on the underlying character data. -/
def pyStrLtData : List Char → List Char → Bool
  | [], [] => false
  | [], _ :: _ => true
  | _ :: _, [] => false
  | a :: as, b :: bs =>
    if a.toNat < b.toNat then true
    else if b.toNat < a.toNat then false
    else pyStrLtData as bs

/-- Python string comparison `a < b` (lexicographic by code point). -/
def pyStrLt (a b : String) : Bool := pyStrLtData a.data b.data

/-- Insert a string into a list, before the first element that is not
smaller: the insertion step of a stable ascending sort. -/
def insertSorted (x : String) : List String → List String
  | [] => [x]
  | y :: ys => if pyStrLt y x then y :: insertSorted x ys else x :: y :: ys

/-- Python's `sorted` on a list of strings: stable ascending insertion sort
under the code-point order. -/
def pySorted (l : List String) : List String := l.foldr insertSorted []

theorem insertSorted_perm (x : String) : ∀ l : List String,
    (insertSorted x l).Perm (x :: l)
  | [] => List.Perm.refl _
  | y :: ys => by
    unfold insertSorted
    by_cases h : pyStrLt y x = true
    · rw [if_pos h]
      exact ((insertSorted_perm x ys).cons y).trans (List.Perm.swap x y ys)
    · rw [if_neg h]

theorem pySorted_perm : ∀ l : List String, (pySorted l).Perm l
  | [] => List.Perm.refl _
  | x :: l => by
    show (insertSorted x (pySorted l)).Perm (x :: l)
    exact (insertSorted_perm x (pySorted l)).trans ((pySorted_perm l).cons x)

theorem mem_pySorted {x : String} {l : List String} :
    x ∈ pySorted l ↔ x ∈ l := (pySorted_perm l).mem_iff

theorem length_pySorted (l : List String) :
    (pySorted l).length = l.length := (pySorted_perm l).length_eq

/-- `os.path.join` of two components (with the slash separator). -/
def pathJoin (a b : String) : String := a ++ "/" ++ b

/-- A filesystem, as the notebook observes it: `os.listdir`,
`os.path.isdir`, `os.path.isfile`. -/
structure FS where
  listdir : String → List String
  isdir : String → Bool
  isfile : String → Bool

/-- The inner loop of `load_data` over one category directory `dirPath`:
`for models in os.listdir(dir_path)` keep
`os.path.join(dir_path, models, 'models/model_normalized.obj')` when
`os.path.isfile` holds of it. -/
def catFiles (fs : FS) (dirPath : String) : List String :=
  (fs.listdir dirPath).filterMap (fun mdl =>
    if fs.isfile (pathJoin (pathJoin dirPath mdl) "models/model_normalized.obj")
    then some (pathJoin (pathJoin dirPath mdl) "models/model_normalized.obj")
    else none)

/-- One iteration of the outer loop of `load_data`, on the accumulator
`(file_paths, labels, label_map)` and an enumerated entry `(idx, directory)`
of the sorted root listing: when `os.path.isdir(dir_path)` holds, record
`label_map[directory] = idx` and append the category's model files and
their labels. -/
def loadStep (fs : FS) (rootDir : String)
    (acc : List String × List Nat × List (String × Nat)) (e : Nat × String) :
    List String × List Nat × List (String × Nat) :=
  let dirPath := pathJoin rootDir e.2
  if fs.isdir dirPath then
    (acc.1 ++ catFiles fs dirPath,
     acc.2.1 ++ (catFiles fs dirPath).map (fun _ => e.1),
     acc.2.2 ++ [(e.2, e.1)])
  else acc

/-- `load_data(root_dir)`: iterate `enumerate(sorted(os.listdir(root_dir)))`
through `loadStep`, returning `(file_paths, labels, label_map)`. -/
def load_data (fs : FS) (rootDir : String) :
    List String × List Nat × List (String × Nat) :=
  ((pySorted (fs.listdir rootDir)).enum).foldl (loadStep fs rootDir) ([], [], [])

/-- The enumerated entries of the sorted root listing that name directories:
exactly the iterations of `load_data`'s outer loop that pass the
`os.path.isdir` guard. -/
def dirEntries (fs : FS) (rootDir : String) : List (Nat × String) :=
  ((pySorted (fs.listdir rootDir)).enum).filter
    (fun e => fs.isdir (pathJoin rootDir e.2))

/-- The file paths returned by `load_data`. -/
def filePaths (fs : FS) (rootDir : String) : List String :=
  (load_data fs rootDir).1

/-- The per-file labels returned by `load_data`. -/
def fileLabels (fs : FS) (rootDir : String) : List Nat :=
  (load_data fs rootDir).2.1

/-- The label map returned by `load_data`, as an association list in
insertion order (Python dicts preserve insertion order). -/
def labelMap (fs : FS) (rootDir : String) : List (String × Nat) :=
  (load_data fs rootDir).2.2

theorem foldl_loadStep (fs : FS) (rootDir : String) :
    ∀ (l : List (Nat × String)) (a : List String) (b : List Nat)
      (c : List (String × Nat)),
      l.foldl (loadStep fs rootDir) (a, b, c) =
        (a ++ ((l.filter (fun e => fs.isdir (pathJoin rootDir e.2))).map
            (fun e => catFiles fs (pathJoin rootDir e.2))).flatten,
         b ++ ((l.filter (fun e => fs.isdir (pathJoin rootDir e.2))).map
            (fun e => (catFiles fs (pathJoin rootDir e.2)).map
              (fun _ => e.1))).flatten,
         c ++ (l.filter (fun e => fs.isdir (pathJoin rootDir e.2))).map
            (fun e => (e.2, e.1)))
  | [], a, b, c => by simp
  | e :: l, a, b, c => by
    simp only [List.foldl_cons, loadStep]
    by_cases h : fs.isdir (pathJoin rootDir e.2) = true
    · rw [if_pos h, foldl_loadStep fs rootDir l]
      simp [List.filter_cons, h, List.append_assoc]
    · rw [if_neg h, foldl_loadStep fs rootDir l]
      simp [List.filter_cons, h]

theorem filePaths_eq (fs : FS) (rootDir : String) :
    filePaths fs rootDir =
      ((dirEntries fs rootDir).map
        (fun e => catFiles fs (pathJoin rootDir e.2))).flatten := by
  simp [filePaths, load_data, dirEntries, foldl_loadStep]

theorem fileLabels_eq (fs : FS) (rootDir : String) :
    fileLabels fs rootDir =
      ((dirEntries fs rootDir).map
        (fun e => (catFiles fs (pathJoin rootDir e.2)).map
          (fun _ => e.1))).flatten := by
  simp [fileLabels, load_data, dirEntries, foldl_loadStep]

theorem labelMap_eq (fs : FS) (rootDir : String) :
    labelMap fs rootDir =
      (dirEntries fs rootDir).map (fun e => (e.2, e.1)) := by
  simp [labelMap, load_data, dirEntries, foldl_loadStep]

/-- Python's `list.index` as a total function: position of the first
occurrence of `v`, `none` when `v` is absent (where `list.index` raises
`ValueError`). -/
def pyIndex {α : Type _} [DecidableEq α] (v : α) : List α → Option Nat
  | [] => none
  | x :: xs => if x = v then some 0 else (pyIndex v xs).map (· + 1)

/-- The inverse lookup `predict_3d_model` performs on the label map:
`list(label_map.keys())[list(label_map.values()).index(i)]`, with `none`
when the index is absent (the `ValueError` is caught by the enclosing
`try`). -/
def invLookup (m : List (String × Nat)) (i : Nat) : Option String :=
  match pyIndex i (m.map Prod.snd) with
  | some k => (m.map Prod.fst).get? k
  | none => none

theorem pyIndex_get? {α : Type _} [DecidableEq α] {v : α} :
    ∀ {l : List α} {k : Nat}, pyIndex v l = some k → l.get? k = some v
  | [], _ => fun h => absurd h (by simp [pyIndex])
  | x :: xs, k => by
    unfold pyIndex
    by_cases h : x = v
    · rw [if_pos h]
      intro hk
      cases hk
      simpa using h
    · rw [if_neg h]
      intro hk
      rcases Option.map_eq_some'.1 hk with ⟨k', hk', rfl⟩
      simpa using pyIndex_get? hk'

theorem pyIndex_of_mem {α : Type _} [DecidableEq α] {v : α} :
    ∀ {l : List α}, v ∈ l → ∃ k, pyIndex v l = some k
  | [], hmem => absurd hmem (List.not_mem_nil v)
  | x :: xs, hmem => by
    unfold pyIndex
    by_cases h : x = v
    · exact ⟨0, by rw [if_pos h]⟩
    · rcases List.mem_cons.1 hmem with rfl | hmem'
      · exact absurd rfl h
      · rcases pyIndex_of_mem hmem' with ⟨k, hk⟩
        exact ⟨k + 1, by rw [if_neg h, hk]; rfl⟩

theorem labelMap_map_snd (fs : FS) (rootDir : String) :
    (labelMap fs rootDir).map Prod.snd =
      (dirEntries fs rootDir).map Prod.fst := by
  rw [labelMap_eq, List.map_map]
  rfl

theorem labelMap_map_fst (fs : FS) (rootDir : String) :
    (labelMap fs rootDir).map Prod.fst =
      (dirEntries fs rootDir).map Prod.snd := by
  rw [labelMap_eq, List.map_map]
  rfl

theorem labelMap_snd_nodup (fs : FS) (rootDir : String) :
    ((labelMap fs rootDir).map Prod.snd).Nodup := by
  rw [labelMap_map_snd]
  exact List.Nodup.sublist
    (List.Sublist.map Prod.fst (List.filter_sublist _))
    (List.nodup_enum_map_fst _)

theorem labelMap_fst_nodup (fs : FS) (rootDir : String)
    (hnd : (fs.listdir rootDir).Nodup) :
    ((labelMap fs rootDir).map Prod.fst).Nodup := by
  rw [labelMap_map_fst]
  have hsorted : (pySorted (fs.listdir rootDir)).Nodup :=
    (pySorted_perm (fs.listdir rootDir)).nodup_iff.2 hnd
  have henum : ((pySorted (fs.listdir rootDir)).enum.map Prod.snd).Nodup := by
    rw [List.enum_map_snd]
    exact hsorted
  exact List.Nodup.sublist
    (List.Sublist.map Prod.snd (List.filter_sublist _)) henum

theorem mem_labelMap {fs : FS} {rootDir d : String} {i : Nat} :
    (d, i) ∈ labelMap fs rootDir ↔
      ((pySorted (fs.listdir rootDir)).get? i = some d ∧
        fs.isdir (pathJoin rootDir d) = true) := by
  rw [labelMap_eq]
  constructor
  · intro hmem
    rcases List.mem_map.1 hmem with ⟨e, he, heq⟩
    obtain ⟨rfl, rfl⟩ : e.2 = d ∧ e.1 = i := by
      constructor <;> [exact congrArg Prod.fst heq; exact congrArg Prod.snd heq]
    rcases List.mem_filter.1 he with ⟨henum, hdir⟩
    refine ⟨?_, hdir⟩
    rw [List.get?_eq_getElem?]
    exact List.mem_enum_iff_getElem?.1 (by simpa using henum)
  · rintro ⟨hget, hdir⟩
    refine List.mem_map.2 ⟨(i, d), ?_, rfl⟩
    refine List.mem_filter.2 ⟨?_, hdir⟩
    exact List.mem_enum_iff_getElem?.2 (by rw [← List.get?_eq_getElem?]; exact hget)

/-- String equality through the character data (kernel-evaluable). -/
def streq (a b : String) : Bool := a.data == b.data

/-- A concrete two-category filesystem used to instantiate the theorems:
root "r" lists the category directories "c2", "c1" (returned unsorted),
each holding one model directory with a model_normalized.obj file. -/
def fsW : FS where
  listdir p :=
    if streq p "r" then ["c2", "c1"]
    else if streq p "r/c1" then ["m1"]
    else if streq p "r/c2" then ["m2"]
    else []
  isdir p := streq p "r" || streq p "r/c1" || streq p "r/c2"
  isfile p :=
    streq p "r/c1/m1/models/model_normalized.obj" ||
    streq p "r/c2/m2/models/model_normalized.obj"

/-- A root whose sorted listing is ["a0", "b1"], where "a0" is a plain file
and "b1" is the only category directory. -/
def fsC2 : FS where
  listdir p := if streq p "r" then ["a0", "b1"] else []
  isdir p := streq p "r" || streq p "r/b1"
  isfile _ := false

/-- C1: for every root directory (directory listings have no duplicate
names), the label map built by `load_data` is a bijection between category
directory names and class indices: entries with distinct names carry
distinct indices, and for every index in the map's values the inverse
lookup performed by `predict_3d_model` returns exactly one directory name,
which maps back to that index. -/
theorem labelMap_bijection (fs : FS) (rootDir : String) :
    (∀ p ∈ labelMap fs rootDir, ∀ q ∈ labelMap fs rootDir,
        p.1 ≠ q.1 → p.2 ≠ q.2) ∧
    (∀ i ∈ (labelMap fs rootDir).map Prod.snd, ∃ d,
        invLookup (labelMap fs rootDir) i = some d ∧
        (d, i) ∈ labelMap fs rootDir ∧
        ∀ d2, (d2, i) ∈ labelMap fs rootDir → d2 = d) := by
  have hsnd := labelMap_snd_nodup fs rootDir
  constructor
  · intro p hp q hq hne h2
    exact hne (congrArg Prod.fst (List.inj_on_of_nodup_map hsnd hp hq h2))
  · intro i hi
    rcases pyIndex_of_mem hi with ⟨k, hk⟩
    have hgk : ((labelMap fs rootDir).map Prod.snd).get? k = some i :=
      pyIndex_get? hk
    rw [List.get?_map] at hgk
    rcases Option.map_eq_some'.1 hgk with ⟨pr, hpr, hpr2⟩
    have hmem : pr ∈ labelMap fs rootDir := List.get?_mem hpr
    have hpr' : pr = (pr.1, i) := by rw [← hpr2]
    refine ⟨pr.1, ?_, ?_, ?_⟩
    · simp only [invLookup, hk, List.get?_map, hpr, Option.map_some']
    · rw [← hpr']; exact hmem
    · intro d2 hd2
      have heq : (d2, i) = pr :=
        List.inj_on_of_nodup_map hsnd hd2 hmem (by rw [← hpr2])
      rw [← heq]

/-- Witness for `labelMap_bijection` at the concrete filesystem `fsW`,
instantiating the inverse-lookup part at class index 0. -/
theorem labelMap_bijection_witness :
    0 ∈ (labelMap fsW "r").map Prod.snd ∧
    (∃ d, invLookup (labelMap fsW "r") 0 = some d ∧
      (d, 0) ∈ labelMap fsW "r" ∧
      ∀ d2, (d2, 0) ∈ labelMap fsW "r" → d2 = d) :=
  ⟨by decide, (labelMap_bijection fsW "r").2 0 (by decide)⟩

/-- C2 counterexample: `enumerate` in `load_data` counts every entry of the
sorted root listing, files included. In `fsC2` the plain file "a0" precedes
the only category directory "b1", so the 0th category directory is assigned
class index 1 and the map's values are [1], not the range with one element. -/
theorem load_data_index_counterexample :
    labelMap fsC2 "r" = [("b1", 1)] ∧
    (labelMap fsC2 "r").map Prod.snd ≠
      List.range (labelMap fsC2 "r").length := by
  exact ⟨by decide, by decide⟩

/-- C2 (amended): `load_data` enumerates the sorted root listing with
`enumerate`, counting every entry (files included): a category directory's
class index is its 0-based position among ALL entries of the sorted
listing, and the map's values are exactly 0..n-1 when every root entry is
a directory. -/
theorem load_data_index_is_listing_position (fs : FS) (rootDir : String) :
    (∀ d i, (d, i) ∈ labelMap fs rootDir →
        (pySorted (fs.listdir rootDir)).get? i = some d ∧
        fs.isdir (pathJoin rootDir d) = true) ∧
    ((∀ d ∈ fs.listdir rootDir, fs.isdir (pathJoin rootDir d) = true) →
      (labelMap fs rootDir).map Prod.snd =
        List.range (fs.listdir rootDir).length) := by
  constructor
  · intro d i h
    exact mem_labelMap.1 h
  · intro hall
    rw [labelMap_map_snd, dirEntries]
    have hfilter :
        List.filter (fun e => fs.isdir (pathJoin rootDir e.2))
            ((pySorted (fs.listdir rootDir)).enum) =
          (pySorted (fs.listdir rootDir)).enum := by
      rw [List.filter_eq_self]
      intro e he
      apply hall
      apply mem_pySorted.1
      apply List.get?_mem
      rw [List.get?_eq_getElem?]
      exact List.mem_enum_iff_getElem?.1 he
    rw [hfilter, List.enum_map_fst, length_pySorted]

/-- Witness for `load_data_index_is_listing_position` at `fsW`: the map
entry ("c1", 0) sits at position 0 of the sorted listing ["c1", "c2"]. -/
theorem load_data_index_is_listing_position_witness :
    ("c1", 0) ∈ labelMap fsW "r" ∧
    ((pySorted (fsW.listdir "r")).get? 0 = some "c1" ∧
      fsW.isdir (pathJoin "r" "c1") = true) :=
  ⟨by decide,
    (load_data_index_is_listing_position fsW "r").1 "c1" 0 (by decide)⟩

/-- The path shape `load_data` consumes:
`os.path.join(dir_path, models, 'models/model_normalized.obj')` for
`dir_path = rootDir/d` and `models = mdl`. -/
def modelPath (rootDir d mdl : String) : String :=
  pathJoin (pathJoin (pathJoin rootDir d) mdl) "models/model_normalized.obj"

theorem mem_catFiles {fs : FS} {rootDir d p : String} :
    p ∈ catFiles fs (pathJoin rootDir d) ↔
      ∃ mdl ∈ fs.listdir (pathJoin rootDir d),
        p = modelPath rootDir d mdl ∧ fs.isfile p = true := by
  unfold catFiles
  rw [List.mem_filterMap]
  constructor
  · rintro ⟨mdl, hm, hp⟩
    by_cases hf : fs.isfile
        (pathJoin (pathJoin (pathJoin rootDir d) mdl)
          "models/model_normalized.obj") = true
    · rw [if_pos hf] at hp
      cases hp
      exact ⟨mdl, hm, rfl, hf⟩
    · rw [if_neg hf] at hp
      cases hp
  · rintro ⟨mdl, hm, rfl, hf⟩
    refine ⟨mdl, hm, ?_⟩
    simp only [modelPath] at hf ⊢
    rw [if_pos hf]

theorem zip_map_const {α β : Type _} (l : List α) (c : β) :
    l.zip (l.map (fun _ => c)) = l.map (fun a => (a, c)) := by
  have h := List.zip_map' id (fun _ => c) l
  simpa using h

theorem zip_filePaths_fileLabels (fs : FS) (rootDir : String) :
    (filePaths fs rootDir).zip (fileLabels fs rootDir) =
      ((dirEntries fs rootDir).map
        (fun e => (catFiles fs (pathJoin rootDir e.2)).map
          (fun p => (p, e.1)))).flatten := by
  rw [filePaths_eq, fileLabels_eq]
  induction dirEntries fs rootDir with
  | nil => rfl
  | cons e L ih =>
    simp only [List.map_cons, List.flatten_cons]
    rw [List.zip_append (by rw [List.length_map]), ih, zip_map_const]

/-- C7: `load_data` consumes exactly the layout
`<root>/<category_dir>/<model_dir>/models/model_normalized.obj`: the
returned file paths are precisely the paths of that shape through an actual
category directory and model entry that exist as files, and each returned
path is paired (positionally, paths with labels) with the class index its
category directory has in the label map. -/
theorem load_data_consumes_layout (fs : FS) (rootDir : String) :
    (∀ p, p ∈ filePaths fs rootDir ↔ ∃ d mdl,
        d ∈ fs.listdir rootDir ∧ fs.isdir (pathJoin rootDir d) = true ∧
        mdl ∈ fs.listdir (pathJoin rootDir d) ∧
        p = modelPath rootDir d mdl ∧ fs.isfile p = true) ∧
    (∀ pr ∈ (filePaths fs rootDir).zip (fileLabels fs rootDir), ∃ d mdl,
        (d, pr.2) ∈ labelMap fs rootDir ∧
        mdl ∈ fs.listdir (pathJoin rootDir d) ∧
        pr.1 = modelPath rootDir d mdl ∧ fs.isfile pr.1 = true) := by
  constructor
  · intro p
    rw [filePaths_eq]
    constructor
    · intro hp
      rcases List.mem_flatten.1 hp with ⟨blk, hblk, hpblk⟩
      rcases List.mem_map.1 hblk with ⟨e, he, rfl⟩
      rcases List.mem_filter.1 he with ⟨henum, hdir⟩
      have hd : e.2 ∈ fs.listdir rootDir := by
        apply mem_pySorted.1
        apply List.get?_mem
        rw [List.get?_eq_getElem?]
        exact List.mem_enum_iff_getElem?.1 henum
      rcases mem_catFiles.1 hpblk with ⟨mdl, hm, hpe, hf⟩
      exact ⟨e.2, mdl, hd, hdir, hm, hpe, hf⟩
    · rintro ⟨d, mdl, hd, hdir, hm, rfl, hf⟩
      have hd' : d ∈ pySorted (fs.listdir rootDir) := mem_pySorted.2 hd
      rcases List.mem_iff_getElem?.1 hd' with ⟨i, hi⟩
      have he : (i, d) ∈ (pySorted (fs.listdir rootDir)).enum :=
        List.mem_enum_iff_getElem?.2 hi
      have hde : (i, d) ∈ dirEntries fs rootDir :=
        List.mem_filter.2 ⟨he, hdir⟩
      refine List.mem_flatten.2
        ⟨catFiles fs (pathJoin rootDir d), List.mem_map.2 ⟨(i, d), hde, rfl⟩, ?_⟩
      exact mem_catFiles.2 ⟨mdl, hm, rfl, hf⟩
  · intro pr hpr
    rw [zip_filePaths_fileLabels] at hpr
    rcases List.mem_flatten.1 hpr with ⟨blk, hblk, hprblk⟩
    rcases List.mem_map.1 hblk with ⟨e, he, rfl⟩
    rcases List.mem_map.1 hprblk with ⟨p0, hp0, rfl⟩
    rcases mem_catFiles.1 hp0 with ⟨mdl, hm, hpe, hf⟩
    refine ⟨e.2, mdl, ?_, hm, hpe, hf⟩
    rw [labelMap_eq]
    exact List.mem_map.2 ⟨e, he, rfl⟩

/-- Witness for `load_data_consumes_layout` at `fsW`: the model file of
category "c1" appears in the zipped output with class index 0 and has the
layout shape. -/
theorem load_data_consumes_layout_witness :
    ("r/c1/m1/models/model_normalized.obj", 0) ∈
        (filePaths fsW "r").zip (fileLabels fsW "r") ∧
    (∃ d mdl, (d, 0) ∈ labelMap fsW "r" ∧
        mdl ∈ fsW.listdir (pathJoin "r" d) ∧
        "r/c1/m1/models/model_normalized.obj" = modelPath "r" d mdl ∧
        fsW.isfile "r/c1/m1/models/model_normalized.obj" = true) :=
  ⟨by decide,
    (load_data_consumes_layout fsW "r").2
      ("r/c1/m1/models/model_normalized.obj", 0) (by decide)⟩

/-- A checkpoint record exactly as `train_model` builds it: the four fields
`epoch`, `state_dict`, `best_val_loss`, `optimizer`, over abstract model
parameter and optimizer state types. `best_val_loss` carries the value of
the loop variable, which starts at float('inf') (modelled by `none`) and
otherwise holds a finite loss (modelled by a rational). -/
structure Checkpoint (P O : Type) where
  epoch : Nat
  state_dict : P
  best_val_loss : Option ℚ
  optimizer : O

/-- The `torch.save` / `torch.load` store: a serialized record per file
path, `none` where no file exists (`os.path.isfile` is false). -/
def CkptStore (P O : Type) := String → Option (Checkpoint P O)

/-- `save_checkpoint(state, filename)`:
`torch.save(state, os.path.join('./checkpoints', filename))` (the
`os.makedirs` side effect creates the directory and is not observable in
the store). -/
def save_checkpoint {P O : Type} (store : CkptStore P O)
    (state : Checkpoint P O) (filename : String) : CkptStore P O :=
  fun p => if p = pathJoin "./checkpoints" filename then some state else store p

/-- `load_checkpoint(filepath, model, optimizer)`. When no file exists at
`filepath`, print the message and return None; otherwise `torch.load` the
record, load its state_dict into the model, load the optimizer state when
an optimizer was passed, print, and return the record. The result tuple is
(printed lines, returned value, model parameters after the call, optimizer
state after the call). -/
def load_checkpoint {P O : Type} (store : CkptStore P O) (filepath : String)
    (modelParams : P) (optState : Option O) :
    List String × Option (Checkpoint P O) × P × Option O :=
  match store filepath with
  | none =>
    (["No checkpoint found at " ++ filepath], none, modelParams, optState)
  | some ckpt =>
    (["Loaded checkpoint " ++ filepath ++ " epoch " ++ toString ckpt.epoch],
     some ckpt, ckpt.state_dict,
     match optState with
     | some _ => some ckpt.optimizer
     | none => none)

/-- C3: called on a filepath that names no existing file, `load_checkpoint`
logs the missing file and is a no-op: it returns None and leaves the model
parameters and optimizer state it was passed unchanged. -/
theorem load_checkpoint_missing {P O : Type} (store : CkptStore P O)
    (filepath : String) (modelParams : P) (optState : Option O)
    (hmiss : store filepath = none) :
    load_checkpoint store filepath modelParams optState =
      (["No checkpoint found at " ++ filepath], none, modelParams, optState) := by
  unfold load_checkpoint
  rw [hmiss]

/-- The empty checkpoint store over Nat-typed states: no file exists. -/
def emptyStore : CkptStore Nat Nat := fun _ => none

/-- Witness for `load_checkpoint_missing` on the empty store. -/
theorem load_checkpoint_missing_witness :
    emptyStore "./checkpoints/model_checkpoint.pth" = none ∧
    load_checkpoint emptyStore "./checkpoints/model_checkpoint.pth" 5
        (some 7) =
      (["No checkpoint found at ./checkpoints/model_checkpoint.pth"],
        none, 5, some 7) :=
  ⟨rfl, load_checkpoint_missing emptyStore
    "./checkpoints/model_checkpoint.pth" 5 (some 7) rfl⟩

/-- C6: the checkpoint round-trips through save and load: loading the file
`save_checkpoint` wrote returns the saved record, and in particular the
returned epoch field equals the epoch field that was saved. -/
theorem checkpoint_roundtrip_epoch {P O : Type} (store : CkptStore P O)
    (state : Checkpoint P O) (filename : String) (modelParams : P)
    (optState : Option O) :
    (load_checkpoint (save_checkpoint store state filename)
        (pathJoin "./checkpoints" filename) modelParams optState).2.1 =
      some state ∧
    ((load_checkpoint (save_checkpoint store state filename)
        (pathJoin "./checkpoints" filename) modelParams optState).2.1).map
        Checkpoint.epoch =
      some state.epoch := by
  have hs : save_checkpoint store state filename
      (pathJoin "./checkpoints" filename) = some state := by
    unfold save_checkpoint
    rw [if_pos rfl]
  unfold load_checkpoint
  rw [hs]
  exact ⟨rfl, rfl⟩

/-- The training environment: the parts of `train_model` that are torch
library calls on opaque tensor state. `initOpt` is
`torch.optim.Adam(model.parameters())`; `runTrainEpoch` is one pass of the
inner batch loop over `train_loader` (forward, loss, backward, optimizer
step per batch), returning the updated model parameters, the updated
optimizer state and the summed training loss; `valBatchLosses` gives the
per-batch validation losses of the current parameters over `val_loader`.
Loss floats are modelled by rationals. -/
structure TrainEnv (P O : Type) where
  initOpt : P → O
  runTrainEpoch : P → O → P × O × ℚ
  valBatchLosses : P → List ℚ

/-- `average_val_loss = total_val_loss / len(val_loader)` (exact rational
division; the notebook always runs with a nonempty `val_loader`). -/
def avgValLoss {P O : Type} (env : TrainEnv P O) (p : P) : ℚ :=
  (env.valBatchLosses p).sum / (env.valBatchLosses p).length

/-- `average_val_loss < best_val_loss`, where `best_val_loss` may still be
`float('inf')` (modelled by `none`). -/
def ltInf (a : ℚ) : Option ℚ → Bool
  | none => true
  | some b => decide (a < b)

/-- The state of `train_model` when the loop finishes: current model
parameters and optimizer state, the `best_val_loss` variable, the
checkpoint store, and the list of checkpoint records passed to
`save_checkpoint`, in order. -/
structure TrainResult (P O : Type) where
  modelParams : P
  optState : O
  best : Option ℚ
  store : CkptStore P O
  saved : List (Checkpoint P O)

/-- The epoch loop of `train_model`, carrying the 0-based epoch counter:
run the training batches, compute the average validation loss, and when it
is below `best_val_loss` update the best and save the checkpoint record
with fields epoch+1, state_dict, best_val_loss, optimizer. -/
def trainLoop {P O : Type} (env : TrainEnv P O) (savePath : String) :
    P → O → Option ℚ → CkptStore P O → Nat → Nat → TrainResult P O
  | p, o, best, store, _, 0 => ⟨p, o, best, store, []⟩
  | p, o, best, store, epoch, n + 1 =>
    let step := env.runTrainEpoch p o
    let avg := avgValLoss env step.1
    if ltInf avg best then
      let ck : Checkpoint P O :=
        { epoch := epoch + 1, state_dict := step.1,
          best_val_loss := some avg, optimizer := step.2.1 }
      let r := trainLoop env savePath step.1 step.2.1 (some avg)
        (save_checkpoint store ck savePath) (epoch + 1) n
      ⟨r.modelParams, r.optState, r.best, r.store, ck :: r.saved⟩
    else
      trainLoop env savePath step.1 step.2.1 best store (epoch + 1) n

/-- `train_model(model, train_loader, val_loader, num_epochs, save_path)`:
create the optimizer, set `best_val_loss = float('inf')` and run the epoch
loop. -/
def train_model {P O : Type} (env : TrainEnv P O) (p0 : P)
    (num_epochs : Nat) (savePath : String) (store : CkptStore P O) :
    TrainResult P O :=
  trainLoop env savePath p0 (env.initOpt p0) none store 0 num_epochs

/-- Model parameters and optimizer state after `e` completed epochs of
`train_model` started from `p0`. -/
def stateAt {P O : Type} (env : TrainEnv P O) (p0 : P) : Nat → P × O
  | 0 => (p0, env.initOpt p0)
  | e + 1 =>
    ((env.runTrainEpoch (stateAt env p0 e).1 (stateAt env p0 e).2).1,
     (env.runTrainEpoch (stateAt env p0 e).1 (stateAt env p0 e).2).2.1)

/-- The average validation loss computed in (0-based) epoch `e`. -/
def epochAvg {P O : Type} (env : TrainEnv P O) (p0 : P) (e : Nat) : ℚ :=
  avgValLoss env (stateAt env p0 (e + 1)).1

/-- The average validation losses of the first `k` completed epochs. -/
def avgPrefix {P O : Type} (env : TrainEnv P O) (p0 : P) (k : Nat) : List ℚ :=
  (List.range k).map (epochAvg env p0)

/-- The minimum of a list of losses, `none` for the empty list (matching
the initial `best_val_loss = float('inf')`). -/
def listMin : List ℚ → Option ℚ
  | [] => none
  | a :: l =>
    match listMin l with
    | none => some a
    | some b => some (min a b)

/-- The update `best_val_loss` undergoes in one epoch with average loss
`a`. -/
def bestUpdate (b : Option ℚ) (a : ℚ) : Option ℚ :=
  if ltInf a b then some a else b

theorem listMin_eq_none_iff : ∀ l : List ℚ, listMin l = none ↔ l = []
  | [] => by simp [listMin]
  | b :: l => by cases hmin : listMin l <;> simp [listMin, hmin]

theorem listMin_cons (b : ℚ) (l : List ℚ) :
    listMin (b :: l) =
      match listMin l with
      | none => some b
      | some c => some (min b c) := rfl

theorem ltInf_listMin_iff (a : ℚ) :
    ∀ l : List ℚ, ltInf a (listMin l) = true ↔ ∀ x ∈ l, a < x
  | [] => by simp [listMin, ltInf]
  | b :: l => by
    have ih := ltInf_listMin_iff a l
    rw [listMin_cons]
    cases hmin : listMin l with
    | none =>
      have hl : l = [] := (listMin_eq_none_iff l).1 hmin
      subst hl
      simp [ltInf]
    | some c =>
      rw [hmin] at ih
      show ltInf a (some (min b c)) = true ↔ _
      simp only [ltInf, decide_eq_true_eq, lt_min_iff]
      constructor
      · rintro ⟨hb, hc⟩ x hx
        rcases List.mem_cons.1 hx with rfl | hx'
        · exact hb
        · exact ih.1 (by simp [ltInf]; exact hc) x hx'
      · intro h
        refine ⟨h b (List.mem_cons_self b l), ?_⟩
        have := ih.2 (fun x hx => h x (List.mem_cons_of_mem b hx))
        simpa [ltInf] using this

theorem listMin_append (a : ℚ) :
    ∀ l : List ℚ, listMin (l ++ [a]) = bestUpdate (listMin l) a
  | [] => by simp [listMin, bestUpdate, ltInf]
  | b :: l => by
    have ih := listMin_append a l
    show listMin (b :: (l ++ [a])) = _
    rw [listMin_cons, ih, listMin_cons]
    cases hmin : listMin l with
    | none =>
      by_cases hab : a < b
      · simp [bestUpdate, ltInf, hab, min_eq_right hab.le]
      · simp [bestUpdate, ltInf, hab, min_eq_left (le_of_not_lt hab)]
    | some c =>
      by_cases hac : a < c
      · by_cases hab : a < b
        · have h1 : a < min b c := lt_min hab hac
          simp [bestUpdate, ltInf, hac, hab, h1, min_eq_right hab.le]
        · have hba : b ≤ a := le_of_not_lt hab
          have hbc : b < c := lt_of_le_of_lt hba hac
          have h1 : ¬ a < min b c := by
            rw [min_eq_left hbc.le]
            exact hab
          simp [bestUpdate, ltInf, hac, hab, h1, min_eq_left hba,
            min_eq_left hbc.le]
      · have h1 : ¬ a < min b c := fun h =>
          hac (lt_of_lt_of_le h (min_le_right b c))
        simp [bestUpdate, ltInf, hac, h1]

theorem avgPrefix_succ {P O : Type} (env : TrainEnv P O) (p0 : P) (k : Nat) :
    avgPrefix env p0 (k + 1) = avgPrefix env p0 k ++ [epochAvg env p0 k] := by
  simp [avgPrefix, List.range_succ]

/-- The checkpoint record `train_model` saves at the end of 0-based epoch
`k` (when it saves one): 1-based epoch number, the parameters and optimizer
state after that epoch, and the epoch's average validation loss as the best
loss. -/
def mkCkpt {P O : Type} (env : TrainEnv P O) (p0 : P) (k : Nat) :
    Checkpoint P O :=
  { epoch := k + 1, state_dict := (stateAt env p0 (k + 1)).1,
    best_val_loss := some (epochAvg env p0 k),
    optimizer := (stateAt env p0 (k + 1)).2 }

/-- The checkpoints `train_model` saves during epochs `e, ..., e+n-1`,
assuming the best seen before epoch `e` is the minimum of all earlier
epoch averages. -/
def ckSpec {P O : Type} (env : TrainEnv P O) (p0 : P) :
    Nat → Nat → List (Checkpoint P O)
  | _, 0 => []
  | e, n + 1 =>
    if ltInf (epochAvg env p0 e) (listMin (avgPrefix env p0 e)) then
      mkCkpt env p0 e :: ckSpec env p0 (e + 1) n
    else ckSpec env p0 (e + 1) n

/-- Fold the checkpoint writes into the store. -/
def storeFold {P O : Type} (savePath : String) (store : CkptStore P O) :
    List (Checkpoint P O) → CkptStore P O
  | [] => store
  | ck :: cks => storeFold savePath (save_checkpoint store ck savePath) cks

theorem trainLoop_succ {P O : Type} (env : TrainEnv P O) (savePath : String)
    (p : P) (o : O) (best : Option ℚ) (store : CkptStore P O)
    (epoch n : Nat) :
    trainLoop env savePath p o best store epoch (n + 1) =
      if ltInf (avgValLoss env (env.runTrainEpoch p o).1) best then
        ⟨(trainLoop env savePath (env.runTrainEpoch p o).1
            (env.runTrainEpoch p o).2.1
            (some (avgValLoss env (env.runTrainEpoch p o).1))
            (save_checkpoint store
              ⟨epoch + 1, (env.runTrainEpoch p o).1,
                some (avgValLoss env (env.runTrainEpoch p o).1),
                (env.runTrainEpoch p o).2.1⟩ savePath)
            (epoch + 1) n).modelParams,
         (trainLoop env savePath (env.runTrainEpoch p o).1
            (env.runTrainEpoch p o).2.1
            (some (avgValLoss env (env.runTrainEpoch p o).1))
            (save_checkpoint store
              ⟨epoch + 1, (env.runTrainEpoch p o).1,
                some (avgValLoss env (env.runTrainEpoch p o).1),
                (env.runTrainEpoch p o).2.1⟩ savePath)
            (epoch + 1) n).optState,
         (trainLoop env savePath (env.runTrainEpoch p o).1
            (env.runTrainEpoch p o).2.1
            (some (avgValLoss env (env.runTrainEpoch p o).1))
            (save_checkpoint store
              ⟨epoch + 1, (env.runTrainEpoch p o).1,
                some (avgValLoss env (env.runTrainEpoch p o).1),
                (env.runTrainEpoch p o).2.1⟩ savePath)
            (epoch + 1) n).best,
         (trainLoop env savePath (env.runTrainEpoch p o).1
            (env.runTrainEpoch p o).2.1
            (some (avgValLoss env (env.runTrainEpoch p o).1))
            (save_checkpoint store
              ⟨epoch + 1, (env.runTrainEpoch p o).1,
                some (avgValLoss env (env.runTrainEpoch p o).1),
                (env.runTrainEpoch p o).2.1⟩ savePath)
            (epoch + 1) n).store,
         ⟨epoch + 1, (env.runTrainEpoch p o).1,
            some (avgValLoss env (env.runTrainEpoch p o).1),
            (env.runTrainEpoch p o).2.1⟩ ::
           (trainLoop env savePath (env.runTrainEpoch p o).1
              (env.runTrainEpoch p o).2.1
              (some (avgValLoss env (env.runTrainEpoch p o).1))
              (save_checkpoint store
                ⟨epoch + 1, (env.runTrainEpoch p o).1,
                  some (avgValLoss env (env.runTrainEpoch p o).1),
                  (env.runTrainEpoch p o).2.1⟩ savePath)
              (epoch + 1) n).saved⟩
      else
        trainLoop env savePath (env.runTrainEpoch p o).1
          (env.runTrainEpoch p o).2.1 best store (epoch + 1) n := rfl

theorem trainLoop_spec {P O : Type} (env : TrainEnv P O) (p0 : P)
    (savePath : String) :
    ∀ (n e : Nat) (store : CkptStore P O),
      trainLoop env savePath (stateAt env p0 e).1 (stateAt env p0 e).2
          (listMin (avgPrefix env p0 e)) store e n =
        ⟨(stateAt env p0 (e + n)).1, (stateAt env p0 (e + n)).2,
         listMin (avgPrefix env p0 (e + n)),
         storeFold savePath store (ckSpec env p0 e n),
         ckSpec env p0 e n⟩
  | 0, e, store => by simp [trainLoop, ckSpec, storeFold]
  | n + 1, e, store => by
    rw [trainLoop_succ]
    have h3 : avgValLoss env
        (env.runTrainEpoch (stateAt env p0 e).1 (stateAt env p0 e).2).1 =
        epochAvg env p0 e := rfl
    have h1 : (env.runTrainEpoch (stateAt env p0 e).1 (stateAt env p0 e).2).1 =
        (stateAt env p0 (e + 1)).1 := rfl
    have h2 : (env.runTrainEpoch (stateAt env p0 e).1
        (stateAt env p0 e).2).2.1 = (stateAt env p0 (e + 1)).2 := rfl
    rw [h3, h1, h2]
    have harr : e + 1 + n = e + (n + 1) := by omega
    by_cases hcond :
        ltInf (epochAvg env p0 e) (listMin (avgPrefix env p0 e)) = true
    · rw [if_pos hcond]
      have hck : (⟨e + 1, (stateAt env p0 (e + 1)).1,
          some (epochAvg env p0 e), (stateAt env p0 (e + 1)).2⟩ :
            Checkpoint P O) = mkCkpt env p0 e := rfl
      rw [hck]
      have hbest : (some (epochAvg env p0 e) : Option ℚ) =
          listMin (avgPrefix env p0 (e + 1)) := by
        rw [avgPrefix_succ, listMin_append, bestUpdate, if_pos hcond]
      rw [hbest, trainLoop_spec env p0 savePath n (e + 1), harr]
      have hspec : ckSpec env p0 e (n + 1) =
          mkCkpt env p0 e :: ckSpec env p0 (e + 1) n := by
        simp only [ckSpec]
        rw [if_pos hcond]
      rw [hspec]
      rfl
    · rw [if_neg hcond]
      have hbest : listMin (avgPrefix env p0 (e + 1)) =
          listMin (avgPrefix env p0 e) := by
        rw [avgPrefix_succ, listMin_append, bestUpdate, if_neg hcond]
      rw [← hbest, trainLoop_spec env p0 savePath n (e + 1), harr]
      have hspec : ckSpec env p0 e (n + 1) = ckSpec env p0 (e + 1) n := by
        simp only [ckSpec]
        rw [if_neg hcond]
      rw [hspec]

theorem train_model_eq {P O : Type} (env : TrainEnv P O) (p0 : P)
    (n : Nat) (savePath : String) (store : CkptStore P O) :
    train_model env p0 n savePath store =
      ⟨(stateAt env p0 n).1, (stateAt env p0 n).2,
       listMin (avgPrefix env p0 n),
       storeFold savePath store (ckSpec env p0 0 n), ckSpec env p0 0 n⟩ := by
  have h0 : train_model env p0 n savePath store =
      trainLoop env savePath (stateAt env p0 0).1 (stateAt env p0 0).2
        (listMin (avgPrefix env p0 0)) store 0 n := rfl
  rw [h0, trainLoop_spec env p0 savePath n 0 store]
  simp

theorem mem_ckSpec {P O : Type} (env : TrainEnv P O) (p0 : P) :
    ∀ (n e : Nat) (ck : Checkpoint P O),
      ck ∈ ckSpec env p0 e n ↔
        ∃ k, e ≤ k ∧ k < e + n ∧
          ltInf (epochAvg env p0 k) (listMin (avgPrefix env p0 k)) = true ∧
          ck = mkCkpt env p0 k
  | 0, e, ck => by
    simp only [ckSpec, List.not_mem_nil, false_iff]
    rintro ⟨k, hk1, hk2, -, -⟩
    omega
  | n + 1, e, ck => by
    have ih := mem_ckSpec env p0 n (e + 1) ck
    by_cases hcond :
        ltInf (epochAvg env p0 e) (listMin (avgPrefix env p0 e)) = true
    · rw [show ckSpec env p0 e (n + 1) =
          mkCkpt env p0 e :: ckSpec env p0 (e + 1) n from by
        simp only [ckSpec]; rw [if_pos hcond]]
      rw [List.mem_cons]
      constructor
      · rintro (rfl | hmem)
        · exact ⟨e, le_refl e, by omega, hcond, rfl⟩
        · rcases ih.1 hmem with ⟨k, hk1, hk2, hk3, hk4⟩
          exact ⟨k, by omega, by omega, hk3, hk4⟩
      · rintro ⟨k, hk1, hk2, hk3, hk4⟩
        by_cases hke : k = e
        · subst hke
          exact Or.inl hk4
        · exact Or.inr (ih.2 ⟨k, by omega, by omega, hk3, hk4⟩)
    · rw [show ckSpec env p0 e (n + 1) = ckSpec env p0 (e + 1) n from by
        simp only [ckSpec]; rw [if_neg hcond]]
      constructor
      · intro hmem
        rcases ih.1 hmem with ⟨k, hk1, hk2, hk3, hk4⟩
        exact ⟨k, by omega, by omega, hk3, hk4⟩
      · rintro ⟨k, hk1, hk2, hk3, hk4⟩
        apply ih.2
        by_cases hke : k = e
        · subst hke
          exact absurd hk3 hcond
        · exact ⟨k, by omega, by omega, hk3, hk4⟩

theorem ltInf_prefix_iff {P O : Type} (env : TrainEnv P O) (p0 : P)
    (k : Nat) :
    ltInf (epochAvg env p0 k) (listMin (avgPrefix env p0 k)) = true ↔
      ∀ j < k, epochAvg env p0 k < epochAvg env p0 j := by
  rw [ltInf_listMin_iff]
  constructor
  · intro h j hj
    apply h
    simp only [avgPrefix, List.mem_map]
    exact ⟨j, List.mem_range.2 hj, rfl⟩
  · intro h x hx
    simp only [avgPrefix, List.mem_map, List.mem_range] at hx
    rcases hx with ⟨j, hj, rfl⟩
    exact h j hj

/-- Comparison of best losses where `none` stands for float('inf'). -/
def leInf : Option ℚ → Option ℚ → Prop
  | _, none => True
  | none, some _ => False
  | some a, some b => a ≤ b

theorem leInf_refl (b : Option ℚ) : leInf b b := by
  cases b <;> simp [leInf]

theorem leInf_trans {a b c : Option ℚ} (hab : leInf a b) (hbc : leInf b c) :
    leInf a c := by
  cases a <;> cases b <;> cases c <;> simp [leInf] at *
  exact le_trans hab hbc

theorem leInf_of_ltInf {a : ℚ} {b : Option ℚ} (h : ltInf a b = true) :
    leInf (some a) b := by
  cases b with
  | none => simp [leInf]
  | some c =>
    simp only [ltInf, decide_eq_true_eq] at h
    exact le_of_lt h

theorem listMin_avgPrefix_mono {P O : Type} (env : TrainEnv P O) (p0 : P)
    {k : Nat} : ∀ {m : Nat}, k ≤ m →
      leInf (listMin (avgPrefix env p0 m)) (listMin (avgPrefix env p0 k)) := by
  intro m
  induction m with
  | zero => intro hk; rw [Nat.le_zero.1 hk]; exact leInf_refl _
  | succ m ih =>
    intro hk
    rcases Nat.lt_or_ge k (m + 1) with hlt | hge
    · have hkm : k ≤ m := by omega
      refine leInf_trans ?_ (ih hkm)
      rw [avgPrefix_succ, listMin_append, bestUpdate]
      by_cases hc : ltInf (epochAvg env p0 m) (listMin (avgPrefix env p0 m)) = true
      · rw [if_pos hc]
        exact leInf_of_ltInf hc
      · rw [if_neg hc]
        exact leInf_refl _
    · have : k = m + 1 := by omega
      rw [this]
      exact leInf_refl _

/-- C9: along `train_model` (the state after any number of completed
epochs), `best_val_loss` equals the minimum of the average validation
losses of the completed epochs (`none`, i.e. float('inf'), before the
first); it is monotonically non-increasing in the number of completed
epochs; a checkpoint for 1-based epoch k+1 is saved in a run of n > k
epochs iff epoch k's average validation loss is strictly smaller than
every previous epoch's; and every saved checkpoint's best_val_loss field
is the average validation loss of its epoch. -/
theorem train_model_best_invariant {P O : Type} (env : TrainEnv P O)
    (p0 : P) (savePath : String) (store : CkptStore P O) :
    (∀ k, (train_model env p0 k savePath store).best =
        listMin (avgPrefix env p0 k)) ∧
    (∀ k m, k ≤ m →
        leInf (train_model env p0 m savePath store).best
          (train_model env p0 k savePath store).best) ∧
    (∀ n k, k < n →
        ((∃ ck ∈ (train_model env p0 n savePath store).saved,
            ck.epoch = k + 1) ↔
          ∀ j < k, epochAvg env p0 k < epochAvg env p0 j)) ∧
    (∀ n, ∀ ck ∈ (train_model env p0 n savePath store).saved,
        ∃ k, k < n ∧ ck.epoch = k + 1 ∧
          ck.best_val_loss = some (epochAvg env p0 k)) := by
  refine ⟨?_, ?_, ?_, ?_⟩
  · intro k
    rw [train_model_eq]
  · intro k m hkm
    rw [train_model_eq, train_model_eq]
    exact listMin_avgPrefix_mono env p0 hkm
  · intro n k hk
    rw [train_model_eq]
    show (∃ ck ∈ ckSpec env p0 0 n, ck.epoch = k + 1) ↔ _
    rw [← ltInf_prefix_iff env p0 k]
    constructor
    · rintro ⟨ck, hmem, hep⟩
      rcases (mem_ckSpec env p0 n 0 ck).1 hmem with ⟨j, -, hj2, hj3, rfl⟩
      have : j = k := by
        have : j + 1 = k + 1 := hep
        omega
      subst this
      exact hj3
    · intro hcond
      refine ⟨mkCkpt env p0 k, ?_, rfl⟩
      exact (mem_ckSpec env p0 n 0 (mkCkpt env p0 k)).2
        ⟨k, Nat.zero_le k, by omega, hcond, rfl⟩
  · intro n ck hmem
    rw [train_model_eq] at hmem
    rcases (mem_ckSpec env p0 n 0 ck).1 hmem with ⟨k, -, hk2, -, rfl⟩
    exact ⟨k, by omega, rfl, rfl⟩

/-- C5: every checkpoint record `train_model` passes to `save_checkpoint`
consists of exactly the four fields epoch, state_dict, best_val_loss,
optimizer (the `Checkpoint` record), where epoch is the 1-based number of
the epoch that produced it (k+1 for the 0-based epoch k < num_epochs),
state_dict and optimizer are the model and optimizer states after that
epoch, and best_val_loss is that epoch's average validation loss. -/
theorem train_model_checkpoint_fields {P O : Type} (env : TrainEnv P O)
    (p0 : P) (savePath : String) (store : CkptStore P O) (n : Nat) :
    ∀ ck ∈ (train_model env p0 n savePath store).saved, ∃ k, k < n ∧
      ck = { epoch := k + 1, state_dict := (stateAt env p0 (k + 1)).1,
             best_val_loss := some (epochAvg env p0 k),
             optimizer := (stateAt env p0 (k + 1)).2 } := by
  intro ck hmem
  rw [train_model_eq] at hmem
  rcases (mem_ckSpec env p0 n 0 ck).1 hmem with ⟨k, -, hk2, -, rfl⟩
  exact ⟨k, by omega, rfl⟩

/-- A concrete training environment over Nat-typed states: each epoch
increments the parameters, and the validation loss of parameters p is the
single batch loss p, so only the first epoch improves the best loss. -/
def envW : TrainEnv Nat Nat where
  initOpt _ := 0
  runTrainEpoch p o := (p + 1, o, 0)
  valBatchLosses p := [(p : ℚ)]

theorem envW_saved_mem :
    mkCkpt envW 0 0 ∈
      (train_model envW 0 2 "model_checkpoint.pth" emptyStore).saved := by
  rw [train_model_eq]
  show mkCkpt envW 0 0 ∈ ckSpec envW 0 0 2
  refine (mem_ckSpec envW 0 2 0 (mkCkpt envW 0 0)).2
    ⟨0, le_refl 0, by omega, ?_, rfl⟩
  have h : listMin (avgPrefix envW 0 0) = none := by
    simp [avgPrefix, listMin]
  rw [h]
  rfl

/-- Witness for `train_model_checkpoint_fields`: in the concrete run of
two epochs, the first epoch's checkpoint is saved and has the stated
fields. -/
theorem train_model_checkpoint_fields_witness :
    mkCkpt envW 0 0 ∈
      (train_model envW 0 2 "model_checkpoint.pth" emptyStore).saved ∧
    (∃ k, k < 2 ∧ mkCkpt envW 0 0 =
      { epoch := k + 1, state_dict := (stateAt envW 0 (k + 1)).1,
        best_val_loss := some (epochAvg envW 0 k),
        optimizer := (stateAt envW 0 (k + 1)).2 }) :=
  ⟨envW_saved_mem,
    train_model_checkpoint_fields envW 0 "model_checkpoint.pth" emptyStore 2
      (mkCkpt envW 0 0) envW_saved_mem⟩

/-- Witness for `train_model_best_invariant`: its hypothesis-bearing parts
applied in the concrete environment `envW` (monotonicity from 0 to 1
epochs, the saved-iff-improved equivalence for epoch 1 of a 1-epoch run,
and the best_val_loss field of the saved first checkpoint). -/
theorem train_model_best_invariant_witness :
    ((0 : Nat) ≤ 1 ∧
      leInf (train_model envW 0 1 "model_checkpoint.pth" emptyStore).best
        (train_model envW 0 0 "model_checkpoint.pth" emptyStore).best) ∧
    ((0 : Nat) < 1 ∧
      ((∃ ck ∈ (train_model envW 0 1 "model_checkpoint.pth" emptyStore).saved,
          ck.epoch = 0 + 1) ↔
        ∀ j < 0, epochAvg envW 0 0 < epochAvg envW 0 j)) ∧
    (mkCkpt envW 0 0 ∈
        (train_model envW 0 2 "model_checkpoint.pth" emptyStore).saved ∧
      ∃ k, k < 2 ∧ (mkCkpt envW 0 0).epoch = k + 1 ∧
        (mkCkpt envW 0 0).best_val_loss = some (epochAvg envW 0 k)) :=
  ⟨⟨Nat.zero_le 1,
     (train_model_best_invariant envW 0 "model_checkpoint.pth"
        emptyStore).2.1 0 1 (Nat.zero_le 1)⟩,
   ⟨Nat.zero_lt_one,
     (train_model_best_invariant envW 0 "model_checkpoint.pth"
        emptyStore).2.2.1 1 0 Nat.zero_lt_one⟩,
   ⟨envW_saved_mem,
     (train_model_best_invariant envW 0 "model_checkpoint.pth"
        emptyStore).2.2.2 2 (mkCkpt envW 0 0) envW_saved_mem⟩⟩

/-- A 3D point with float coordinates modelled by rationals. -/
def Point3 : Type := ℚ × ℚ × ℚ

/-- The mesh environment: `trimesh.load(path, force='mesh')`, which raises
on a bad path (modelled by `Except`), and `mesh.sample(count)`, which
returns `count` surface points (that contract is a hypothesis where
needed). -/
structure MeshEnv (M : Type) where
  loadMesh : String → Except String M
  sample : M → Nat → List Point3

/-- `ShapeNetDataset(file_paths, labels)`. -/
structure ShapeNetDataset where
  file_paths : List String
  labels : List Nat

/-- `__len__`. -/
def ShapeNetDataset.len (ds : ShapeNetDataset) : Nat := ds.file_paths.length

/-- `__getitem__(idx)`: load the mesh at `file_paths[idx]` (a trimesh
exception propagates: there is no try here), sample 1024 points, and
return them with `labels[idx]`; out-of-range indexing raises IndexError. -/
def ShapeNetDataset.getitem {M : Type} (env : MeshEnv M)
    (ds : ShapeNetDataset) (idx : Nat) :
    Except String (List Point3 × Nat) :=
  match ds.file_paths.get? idx with
  | none => Except.error "IndexError"
  | some path =>
    match env.loadMesh path with
    | Except.error e => Except.error e
    | Except.ok mesh =>
      match ds.labels.get? idx with
      | none => Except.error "IndexError"
      | some label => Except.ok (env.sample mesh 1024, label)

/-- `torch.nn.Linear(in_features, out_features)`: an affine map `Wx + b`
with the stored dimensions. -/
structure Linear where
  inFeatures : Nat
  outFeatures : Nat
  weight : Nat → Nat → ℚ
  bias : Nat → ℚ

/-- Apply a linear layer to a feature vector (absent coordinates read 0). -/
def Linear.apply (fc : Linear) (x : List ℚ) : List ℚ :=
  (List.range fc.outFeatures).map (fun o =>
    fc.bias o + ((List.range fc.inFeatures).map (fun i =>
      fc.weight o i * x.getD i 0)).sum)

/-- ReLU. -/
def relu (x : ℚ) : ℚ := max x 0

/-- The network of `ThreeDClassifier.__init__`. -/
structure ThreeDClassifier where
  num_classes : Nat
  dropout_prob : ℚ
  fc1 : Linear
  fc2 : Linear
  fc3 : Linear

/-- `ThreeDClassifier.__init__(num_classes, dropout_prob)`:
`fc1 = nn.Linear(1024 * 3, 512)`, `fc2 = nn.Linear(512, 256)`,
`fc3 = nn.Linear(256, num_classes)`; the torch weight initializer is
abstracted as the `w`/`b` sources. -/
def ThreeDClassifier.init (num_classes : Nat) (dropout_prob : ℚ)
    (w1 w2 w3 : Nat → Nat → ℚ) (b1 b2 b3 : Nat → ℚ) : ThreeDClassifier :=
  { num_classes := num_classes, dropout_prob := dropout_prob,
    fc1 := ⟨1024 * 3, 512, w1, b1⟩,
    fc2 := ⟨512, 256, w2, b2⟩,
    fc3 := ⟨256, num_classes, w3, b3⟩ }

/-- The flattening `x.reshape(x.size(0), -1)` performs on one item of the
batch: a point cloud laid out row-major as 3N features. -/
def flattenPoints : List Point3 → List ℚ
  | [] => []
  | p :: ps => p.1 :: p.2.1 :: p.2.2 :: flattenPoints ps

theorem flattenPoints_length : ∀ ps : List Point3,
    (flattenPoints ps).length = 3 * ps.length
  | [] => rfl
  | p :: ps => by
    show (flattenPoints ps).length + 1 + 1 + 1 = 3 * (ps.length + 1)
    rw [flattenPoints_length ps]
    ring

/-- `ThreeDClassifier.forward` in eval mode (`nn.Dropout` is the identity
in eval mode; training-mode dropout is stochastic and not modelled):
flatten each batch item, fc1, ReLU, fc2, ReLU, fc3, LogSoftmax.
LogSoftmax is a transcendental float computation, taken as an environment
parameter. -/
def ThreeDClassifier.forward (c : ThreeDClassifier)
    (logSoftmax : List ℚ → List ℚ) (batch : List (List Point3)) :
    List (List ℚ) :=
  batch.map (fun item =>
    logSoftmax (c.fc3.apply
      ((c.fc2.apply ((c.fc1.apply (flattenPoints item)).map relu)).map relu)))

/-- C8: every item `__getitem__` produces is a point cloud of exactly 1024
3D points (given trimesh's contract that `sample(count)` returns `count`
points), and its flattening — the reshape `forward` performs on each item —
has 1024*3 = 3072 features, the input dimension of `fc1` in every
classifier `__init__` builds. -/
theorem getitem_fixed_size {M : Type} (env : MeshEnv M)
    (hsample : ∀ m n, (env.sample m n).length = n)
    (ds : ShapeNetDataset) (idx : Nat) (pts : List Point3) (label : Nat)
    (hok : ShapeNetDataset.getitem env ds idx = Except.ok (pts, label)) :
    pts.length = 1024 ∧
    (flattenPoints pts).length = 1024 * 3 ∧
    ∀ (num_classes : Nat) (dropout_prob : ℚ)
      (w1 w2 w3 : Nat → Nat → ℚ) (b1 b2 b3 : Nat → ℚ),
      (ThreeDClassifier.init num_classes dropout_prob
          w1 w2 w3 b1 b2 b3).fc1.inFeatures = 1024 * 3 := by
  have hpts : pts.length = 1024 := by
    unfold ShapeNetDataset.getitem at hok
    split at hok
    · cases hok
    · split at hok
      · cases hok
      · split at hok
        · cases hok
        · cases hok
          exact hsample _ 1024
  refine ⟨hpts, ?_, fun _ _ _ _ _ _ _ _ => rfl⟩
  rw [flattenPoints_length, hpts]

/-- A concrete mesh environment whose meshes are trivial and whose sampler
returns `n` copies of the origin. -/
def meshEnvW : MeshEnv Unit where
  loadMesh _ := Except.ok ()
  sample _ n := List.replicate n ((0 : ℚ), (0 : ℚ), (0 : ℚ))

/-- A concrete one-file dataset. -/
def dsW : ShapeNetDataset where
  file_paths := ["r/c1/m1/models/model_normalized.obj"]
  labels := [0]

/-- Witness for `getitem_fixed_size` on the concrete dataset. -/
theorem getitem_fixed_size_witness :
    (∀ (m : Unit) (n : Nat), (meshEnvW.sample m n).length = n) ∧
    ShapeNetDataset.getitem meshEnvW dsW 0 =
      Except.ok (List.replicate 1024 ((0 : ℚ), (0 : ℚ), (0 : ℚ)), 0) ∧
    ((List.replicate 1024 ((0 : ℚ), (0 : ℚ), (0 : ℚ)) : List Point3).length
        = 1024 ∧
      (flattenPoints
        (List.replicate 1024 ((0 : ℚ), (0 : ℚ), (0 : ℚ)))).length =
        1024 * 3 ∧
      ∀ (num_classes : Nat) (dropout_prob : ℚ)
        (w1 w2 w3 : Nat → Nat → ℚ) (b1 b2 b3 : Nat → ℚ),
        (ThreeDClassifier.init num_classes dropout_prob
            w1 w2 w3 b1 b2 b3).fc1.inFeatures = 1024 * 3) :=
  ⟨fun m n => List.length_replicate n _, rfl,
    getitem_fixed_size meshEnvW (fun m n => List.length_replicate n _)
      dsW 0 _ 0 rfl⟩

/-- `torch.max(outputs, 1)` on one row of class scores: the index of the
first maximal element, `none` for an empty row (where torch.max raises). -/
def pyArgmax : List ℚ → Option Nat
  | [] => none
  | a :: l =>
    match pyArgmax l with
    | none => some 0
    | some k => if a < l.getD k 0 then some (k + 1) else some 0

/-- `predict_3d_model(model, file_path, label_map)`: inside a try block,
load the mesh, sample 1024 points as in training, run the model on the
singleton batch, take the argmax class index, and map it back through the
label map with `list(label_map.keys())[list(label_map.values()).index(i)]`.
Any exception — trimesh.load failing, torch.max on an empty row, or
list.index raising ValueError on an absent index — is caught, a line is
printed, and None is returned. Result: (returned value, printed lines). -/
def predict_3d_model {M : Type} (env : MeshEnv M) (c : ThreeDClassifier)
    (logSoftmax : List ℚ → List ℚ) (file_path : String)
    (label_map : List (String × Nat)) : Option String × List String :=
  match env.loadMesh file_path with
  | Except.error e => (none, ["An error occurred: " ++ e])
  | Except.ok mesh =>
    match pyArgmax ((ThreeDClassifier.forward c logSoftmax
        [env.sample mesh 1024]).headD []) with
    | none => (none, ["An error occurred: max of empty tensor"])
    | some idx =>
      match invLookup label_map idx with
      | none => (none, ["An error occurred: ValueError"])
      | some label => (some label, [])

/-- C4: on every input where loading the mesh raises, or running the
prediction raises (torch.max on an empty score row, or the predicted index
absent from the label map), predict_3d_model catches the exception, logs a
line, and returns the empty result None instead of propagating. -/
theorem predict_catches_errors {M : Type} (env : MeshEnv M)
    (c : ThreeDClassifier) (logSoftmax : List ℚ → List ℚ)
    (file_path : String) (label_map : List (String × Nat))
    (hfail :
      (∃ e, env.loadMesh file_path = Except.error e) ∨
      (∃ mesh, env.loadMesh file_path = Except.ok mesh ∧
        (pyArgmax ((ThreeDClassifier.forward c logSoftmax
            [env.sample mesh 1024]).headD []) = none ∨
          ∃ idx, pyArgmax ((ThreeDClassifier.forward c logSoftmax
              [env.sample mesh 1024]).headD []) = some idx ∧
            invLookup label_map idx = none))) :
    (predict_3d_model env c logSoftmax file_path label_map).1 = none ∧
    (predict_3d_model env c logSoftmax file_path label_map).2 ≠ [] := by
  unfold predict_3d_model
  rcases hfail with ⟨e, he⟩ | ⟨mesh, hm, hpred⟩
  · rw [he]
    exact ⟨rfl, by simp⟩
  · rw [hm]
    dsimp only
    rcases hpred with hmax | ⟨idx, hmax, hinv⟩
    · rw [hmax]
      exact ⟨rfl, by simp⟩
    · rw [hmax]
      dsimp only
      rw [hinv]
      exact ⟨rfl, by simp⟩

/-- A mesh environment whose loader always raises. -/
def meshEnvErr : MeshEnv Unit where
  loadMesh _ := Except.error "failed to load mesh"
  sample _ _ := []

/-- A concrete classifier with zero weights (two classes). -/
def cW : ThreeDClassifier :=
  ThreeDClassifier.init 2 (3 / 10) (fun _ _ => 0) (fun _ _ => 0)
    (fun _ _ => 0) (fun _ => 0) (fun _ => 0) (fun _ => 0)

/-- Witness for `predict_catches_errors`: a failing mesh load on the
concrete label map of `fsW` yields None and a logged line. -/
theorem predict_catches_errors_witness :
    ((∃ e, meshEnvErr.loadMesh "bad.obj" = Except.error e) ∨
      (∃ mesh, meshEnvErr.loadMesh "bad.obj" = Except.ok mesh ∧
        (pyArgmax ((ThreeDClassifier.forward cW id
            [meshEnvErr.sample mesh 1024]).headD []) = none ∨
          ∃ idx, pyArgmax ((ThreeDClassifier.forward cW id
              [meshEnvErr.sample mesh 1024]).headD []) = some idx ∧
            invLookup (labelMap fsW "r") idx = none))) ∧
    (predict_3d_model meshEnvErr cW id "bad.obj" (labelMap fsW "r")).1 =
      none ∧
    (predict_3d_model meshEnvErr cW id "bad.obj" (labelMap fsW "r")).2 ≠
      [] :=
  ⟨Or.inl ⟨"failed to load mesh", rfl⟩,
    (predict_catches_errors meshEnvErr cW id "bad.obj" (labelMap fsW "r")
      (Or.inl ⟨"failed to load mesh", rfl⟩)).1,
    (predict_catches_errors meshEnvErr cW id "bad.obj" (labelMap fsW "r")
      (Or.inl ⟨"failed to load mesh", rfl⟩)).2⟩

theorem zip_get? {α β : Type _} :
    ∀ (X : List α) (y : List β) (i : Nat),
      (X.zip y).get? i =
        (X.get? i).bind (fun a => (y.get? i).map (fun b => (a, b)))
  | [], y, i => by simp
  | x :: X, [], i => by
    cases h : (x :: X).get? i <;> simp [h]
  | x :: X, b :: y, 0 => rfl
  | x :: X, b :: y, i + 1 => by
    simp only [List.zip_cons_cons, List.get?_cons_succ]
    exact zip_get? X y i

/-- Select the elements of `l` at the given positions (fancy indexing by an
index list; out-of-range positions select nothing — the shuffles used below
only produce valid positions). -/
def selectIdx {α : Type _} (l : List α) (idxs : List Nat) : List α :=
  idxs.filterMap (fun i => l.get? i)

theorem selectIdx_zip {α β : Type _} (X : List α) (y : List β)
    (h : X.length = y.length) :
    ∀ idxs : List Nat,
      selectIdx (X.zip y) idxs = (selectIdx X idxs).zip (selectIdx y idxs)
  | [] => rfl
  | i :: idxs => by
    have ih := selectIdx_zip X y h idxs
    cases hX : X.get? i with
    | none =>
      have hy : y.get? i = none := by
        rw [List.get?_eq_none] at hX ⊢
        omega
      have hz : (X.zip y).get? i = none := by
        rw [zip_get?, hX]
        rfl
      simpa [selectIdx, List.filterMap_cons, ← List.get?_eq_getElem?,
        hX, hy, hz] using ih
    | some a =>
      rcases List.get?_eq_some.1 hX with ⟨hi, -⟩
      cases hy : y.get? i with
      | none =>
        rw [List.get?_eq_none] at hy
        omega
      | some b =>
        have hz : (X.zip y).get? i = some (a, b) := by
          rw [zip_get?, hX, hy]
          rfl
        simpa [selectIdx, List.filterMap_cons, ← List.get?_eq_getElem?,
          hX, hy, hz] using ih

theorem selectIdx_range {α : Type _} :
    ∀ X : List α, selectIdx X (List.range X.length) = X
  | [] => rfl
  | x :: X => by
    rw [List.length_cons, List.range_succ_eq_map]
    simp only [selectIdx, List.filterMap_cons, List.get?_cons_zero,
      List.filterMap_map]
    have hcomp : ((fun i => (x :: X).get? i) ∘ Nat.succ) =
        (fun i => X.get? i) := rfl
    rw [hcomp]
    show x :: selectIdx X (List.range X.length) = x :: X
    rw [selectIdx_range X]

theorem selectIdx_perm {α : Type _} (X : List α) {idxs : List Nat}
    (hperm : idxs.Perm (List.range X.length)) :
    (selectIdx X idxs).Perm X := by
  have h1 : (selectIdx X idxs).Perm (selectIdx X (List.range X.length)) :=
    List.Perm.filterMap _ hperm
  rw [selectIdx_range X] at h1
  exact h1

theorem selectIdx_append {α : Type _} (l : List α) (i1 i2 : List Nat) :
    selectIdx l (i1 ++ i2) = selectIdx l i1 ++ selectIdx l i2 :=
  List.filterMap_append i1 i2 _

theorem selectIdx_length_of_forall {α : Type _} (l : List α) :
    ∀ idxs : List Nat, (∀ i ∈ idxs, i < l.length) →
      (selectIdx l idxs).length = idxs.length
  | [], _ => rfl
  | i :: idxs, h => by
    have hi : i < l.length := h i (List.mem_cons_self i idxs)
    rcases List.get?_eq_get hi with hget
    simp only [selectIdx, List.filterMap_cons, hget]
    show (selectIdx l idxs).length + 1 = idxs.length + 1
    rw [selectIdx_length_of_forall l idxs
      (fun j hj => h j (List.mem_cons_of_mem i hj))]

/-- sklearn's `train_test_split(X, y, test_size=t, random_state=s)` with
the default shuffling: `n_test = ceil(t * n)`; a seeded permutation of the
positions 0..n-1 (the `shuffle` parameter: `random_state` makes it a fixed
function of n) is cut into its first n_test entries (the test positions)
and the remaining n - n_test (the train positions), and X and y are
indexed jointly. Returns (X_train, X_test, y_train, y_test). -/
def train_test_split {α β : Type _} (shuffle : Nat → List Nat)
    (X : List α) (y : List β) (test_size : ℚ) :
    List α × List α × List β × List β :=
  (selectIdx X ((shuffle X.length).drop (⌈test_size * X.length⌉).toNat),
   selectIdx X ((shuffle X.length).take (⌈test_size * X.length⌉).toNat),
   selectIdx y ((shuffle X.length).drop (⌈test_size * X.length⌉).toNat),
   selectIdx y ((shuffle X.length).take (⌈test_size * X.length⌉).toNat))

/-- `create_datasets(root_dir, test_size=0.2, val_size=0.1)`: split
`load_data`'s paths and labels into train and test with `test_size`, split
the train part again with `test_size = val_size / (1 - test_size)` into
train and validation, and wrap the three parts as `ShapeNetDataset`s.
Returns (train, val, test, label_map). -/
def create_datasets (shuffle : Nat → List Nat) (fs : FS) (rootDir : String)
    (test_size val_size : ℚ) :
    ShapeNetDataset × ShapeNetDataset × ShapeNetDataset ×
      List (String × Nat) :=
  let ld := load_data fs rootDir
  let s1 := train_test_split shuffle ld.1 ld.2.1 test_size
  let s2 := train_test_split shuffle s1.1 s1.2.2.1
    (val_size / (1 - test_size))
  (⟨s2.1, s2.2.2.1⟩, ⟨s2.2.1, s2.2.2.2⟩, ⟨s1.2.1, s1.2.2.2⟩, ld.2.2)

theorem fileLabels_length (fs : FS) (rootDir : String) :
    (fileLabels fs rootDir).length = (filePaths fs rootDir).length := by
  rw [filePaths_eq, fileLabels_eq]
  induction dirEntries fs rootDir with
  | nil => rfl
  | cons e L ih =>
    simp only [List.map_cons, List.flatten_cons, List.length_append,
      List.length_map]
    rw [ih]

theorem tts_train_pairs {α β : Type _} (shuffle : Nat → List Nat)
    (X : List α) (y : List β) (t : ℚ) (hlen : X.length = y.length) :
    (train_test_split shuffle X y t).1.zip
        (train_test_split shuffle X y t).2.2.1 =
      selectIdx (X.zip y)
        ((shuffle X.length).drop (⌈t * X.length⌉).toNat) :=
  (selectIdx_zip X y hlen
    ((shuffle X.length).drop (⌈t * X.length⌉).toNat)).symm

theorem tts_test_pairs {α β : Type _} (shuffle : Nat → List Nat)
    (X : List α) (y : List β) (t : ℚ) (hlen : X.length = y.length) :
    (train_test_split shuffle X y t).2.1.zip
        (train_test_split shuffle X y t).2.2.2 =
      selectIdx (X.zip y)
        ((shuffle X.length).take (⌈t * X.length⌉).toNat) :=
  (selectIdx_zip X y hlen
    ((shuffle X.length).take (⌈t * X.length⌉).toNat)).symm

theorem tts_pairs_perm {α β : Type _} (shuffle : Nat → List Nat)
    (hperm : ∀ n, (shuffle n).Perm (List.range n))
    (X : List α) (y : List β) (t : ℚ) (hlen : X.length = y.length) :
    ((train_test_split shuffle X y t).1.zip
        (train_test_split shuffle X y t).2.2.1 ++
      (train_test_split shuffle X y t).2.1.zip
        (train_test_split shuffle X y t).2.2.2).Perm (X.zip y) := by
  rw [tts_train_pairs shuffle X y t hlen, tts_test_pairs shuffle X y t hlen,
    ← selectIdx_append]
  have hPlen : (X.zip y).length = X.length := by
    rw [List.length_zip, ← hlen, min_self]
  apply selectIdx_perm
  rw [hPlen]
  have hcomm : ((shuffle X.length).drop (⌈t * X.length⌉).toNat ++
      (shuffle X.length).take (⌈t * X.length⌉).toNat).Perm
        ((shuffle X.length).take (⌈t * X.length⌉).toNat ++
          (shuffle X.length).drop (⌈t * X.length⌉).toNat) :=
    List.perm_append_comm
  rw [List.take_append_drop] at hcomm
  exact hcomm.trans (hperm X.length)

theorem shuffle_mem_lt (shuffle : Nat → List Nat)
    (hperm : ∀ n, (shuffle n).Perm (List.range n)) (n : Nat) :
    ∀ i ∈ shuffle n, i < n := fun i hi =>
  List.mem_range.1 ((hperm n).mem_iff.1 hi)

theorem tts_test_length {α β : Type _} (shuffle : Nat → List Nat)
    (hperm : ∀ n, (shuffle n).Perm (List.range n))
    (X : List α) (y : List β) (t : ℚ)
    (hle : (⌈t * X.length⌉).toNat ≤ X.length) :
    (train_test_split shuffle X y t).2.1.length =
      (⌈t * (X.length : ℚ)⌉).toNat := by
  show (selectIdx X
      ((shuffle X.length).take (⌈t * X.length⌉).toNat)).length = _
  rw [selectIdx_length_of_forall X _
    (fun i hi => shuffle_mem_lt shuffle hperm X.length i
      (List.mem_of_mem_take hi))]
  rw [List.length_take, (hperm X.length).length_eq, List.length_range]
  exact min_eq_left hle

theorem tts_train_length {α β : Type _} (shuffle : Nat → List Nat)
    (hperm : ∀ n, (shuffle n).Perm (List.range n))
    (X : List α) (y : List β) (t : ℚ) :
    (train_test_split shuffle X y t).1.length =
      X.length - (⌈t * (X.length : ℚ)⌉).toNat := by
  show (selectIdx X
      ((shuffle X.length).drop (⌈t * X.length⌉).toNat)).length = _
  rw [selectIdx_length_of_forall X _
    (fun i hi => shuffle_mem_lt shuffle hperm X.length i
      (List.mem_of_mem_drop hi))]
  rw [List.length_drop, (hperm X.length).length_eq, List.length_range]

theorem tts_train_label_length {α β : Type _} (shuffle : Nat → List Nat)
    (hperm : ∀ n, (shuffle n).Perm (List.range n))
    (X : List α) (y : List β) (t : ℚ) (hlen : X.length = y.length) :
    (train_test_split shuffle X y t).1.length =
      (train_test_split shuffle X y t).2.2.1.length := by
  show (selectIdx X ((shuffle X.length).drop (⌈t * X.length⌉).toNat)).length
      = (selectIdx y ((shuffle X.length).drop (⌈t * X.length⌉).toNat)).length
  rw [selectIdx_length_of_forall X _
      (fun i hi => shuffle_mem_lt shuffle hperm X.length i
        (List.mem_of_mem_drop hi)),
    selectIdx_length_of_forall y _
      (fun i hi => hlen ▸ shuffle_mem_lt shuffle hperm X.length i
        (List.mem_of_mem_drop hi))]

theorem ceil_frac_le {n : Nat} {t : ℚ} (ht1 : t ≤ 1) :
    (⌈t * (n : ℚ)⌉).toNat ≤ n := by
  rw [Int.toNat_le]
  refine Int.ceil_le.2 ?_
  push_cast
  exact mul_le_of_le_one_left (Nat.cast_nonneg n) ht1

/-- C10 (amended): `create_datasets` partitions the (file path, label)
pairs returned by `load_data`: the train, validation and test pairs
together are a permutation of `load_data`'s zipped pairs, so every pair
lands in exactly one split, none is duplicated or dropped, and every file
path keeps its label. The split sizes follow sklearn's ceil rounding: the
test set holds ceil(test_size * N) pairs and the validation set
ceil(val_size/(1-test_size) * (N - ceil(test_size * N))) pairs — the exact
fractions test_size and val_size of N only when those products are
integers. -/
theorem create_datasets_partition (shuffle : Nat → List Nat) (fs : FS)
    (rootDir : String) (test_size val_size : ℚ)
    (hperm : ∀ n, (shuffle n).Perm (List.range n))
    (ht1 : test_size ≤ 1) (hv1 : val_size / (1 - test_size) ≤ 1) :
    ((((create_datasets shuffle fs rootDir test_size val_size).1.file_paths.zip
        (create_datasets shuffle fs rootDir test_size val_size).1.labels) ++
      ((create_datasets shuffle fs rootDir test_size val_size).2.1.file_paths.zip
        (create_datasets shuffle fs rootDir test_size val_size).2.1.labels)) ++
      ((create_datasets shuffle fs rootDir test_size val_size).2.2.1.file_paths.zip
        (create_datasets shuffle fs rootDir test_size
          val_size).2.2.1.labels)).Perm
      ((filePaths fs rootDir).zip (fileLabels fs rootDir)) ∧
    (create_datasets shuffle fs rootDir test_size
        val_size).2.2.1.file_paths.length =
      (⌈test_size * ((filePaths fs rootDir).length : ℚ)⌉).toNat ∧
    (create_datasets shuffle fs rootDir test_size
        val_size).2.1.file_paths.length =
      (⌈(val_size / (1 - test_size)) *
        ((((filePaths fs rootDir).length -
          (⌈test_size * ((filePaths fs rootDir).length : ℚ)⌉).toNat) :
            ℕ) : ℚ)⌉).toNat := by
  have hlen : (filePaths fs rootDir).length = (fileLabels fs rootDir).length :=
    (fileLabels_length fs rootDir).symm
  have hlen2 :
      (train_test_split shuffle (filePaths fs rootDir)
          (fileLabels fs rootDir) test_size).1.length =
        (train_test_split shuffle (filePaths fs rootDir)
          (fileLabels fs rootDir) test_size).2.2.1.length :=
    tts_train_label_length shuffle hperm _ _ test_size hlen
  refine ⟨?_, ?_, ?_⟩
  · have h2 := tts_pairs_perm shuffle hperm
      (train_test_split shuffle (filePaths fs rootDir)
        (fileLabels fs rootDir) test_size).1
      (train_test_split shuffle (filePaths fs rootDir)
        (fileLabels fs rootDir) test_size).2.2.1
      (val_size / (1 - test_size)) hlen2
    have h1 := tts_pairs_perm shuffle hperm (filePaths fs rootDir)
      (fileLabels fs rootDir) test_size hlen
    exact (h2.append_right _).trans h1
  · exact tts_test_length shuffle hperm (filePaths fs rootDir)
      (fileLabels fs rootDir) test_size (ceil_frac_le ht1)
  · have hval := tts_test_length shuffle hperm
      (train_test_split shuffle (filePaths fs rootDir)
        (fileLabels fs rootDir) test_size).1
      (train_test_split shuffle (filePaths fs rootDir)
        (fileLabels fs rootDir) test_size).2.2.1
      (val_size / (1 - test_size)) (ceil_frac_le hv1)
    have htr := tts_train_length shuffle hperm (filePaths fs rootDir)
      (fileLabels fs rootDir) test_size
    rw [htr] at hval
    exact hval

/-- The identity shuffle, a valid permutation of the positions (sklearn's
seeded shuffle is some permutation of them; `random_state` fixes which
one). -/
def shuffleId : Nat → List Nat := fun n => List.range n

/-- A one-category filesystem with seven model files under `r/c`. -/
def fs7 : FS where
  listdir p :=
    if streq p "r" then ["c"]
    else if streq p "r/c" then ["m1", "m2", "m3", "m4", "m5", "m6", "m7"]
    else []
  isdir p := streq p "r" || streq p "r/c"
  isfile p :=
    (["r/c/m1/models/model_normalized.obj",
      "r/c/m2/models/model_normalized.obj",
      "r/c/m3/models/model_normalized.obj",
      "r/c/m4/models/model_normalized.obj",
      "r/c/m5/models/model_normalized.obj",
      "r/c/m6/models/model_normalized.obj",
      "r/c/m7/models/model_normalized.obj"] : List String).any
      (fun q => streq p q)

/-- C10 counterexample: with seven (path, label) pairs and the default
test_size = 1/5, sklearn's split takes ceil(7/5) = 2 test pairs, and 2 is
not the fraction 1/5 of 7, even though the shuffle used is a genuine
permutation of the positions. -/
theorem create_datasets_fraction_counterexample :
    shuffleId 7 = List.range 7 ∧
    (filePaths fs7 "r").length = 7 ∧
    (create_datasets shuffleId fs7 "r" (1 / 5)
        (1 / 10)).2.2.1.file_paths.length = 2 ∧
    ¬ (((create_datasets shuffleId fs7 "r" (1 / 5)
          (1 / 10)).2.2.1.file_paths.length : ℚ) =
        (1 / 5) * ((filePaths fs7 "r").length : ℚ)) := by
  have hpermId : ∀ n, (shuffleId n).Perm (List.range n) :=
    fun n => List.Perm.refl _
  have hN : (filePaths fs7 "r").length = 7 := by decide
  have hlen : (filePaths fs7 "r").length = (fileLabels fs7 "r").length :=
    (fileLabels_length fs7 "r").symm
  have hceil : (⌈(1 / 5 : ℚ) * ((filePaths fs7 "r").length : ℚ)⌉).toNat
      = 2 := by
    rw [hN]
    have h2 : ⌈(1 / 5 : ℚ) * ((7 : ℕ) : ℚ)⌉ = (2 : ℤ) := by
      rw [Int.ceil_eq_iff] <;> norm_num
    rw [h2]
    rfl
  have htest := tts_test_length shuffleId hpermId (filePaths fs7 "r")
    (fileLabels fs7 "r") (1 / 5) (ceil_frac_le (by norm_num))
  rw [hceil] at htest
  refine ⟨rfl, hN, htest, ?_⟩
  rw [hN]
  have h2 : ((create_datasets shuffleId fs7 "r" (1 / 5)
      (1 / 10)).2.2.1.file_paths.length : ℚ) = (2 : ℚ) := by
    rw [show (create_datasets shuffleId fs7 "r" (1 / 5)
      (1 / 10)).2.2.1.file_paths.length = 2 from htest]
    rfl
  rw [h2]
  norm_num

/-- Witness for `create_datasets_partition` at the two-category concrete
filesystem with the default fractions and the identity shuffle. -/
theorem create_datasets_partition_witness :
    (∀ n, (shuffleId n).Perm (List.range n)) ∧
    ((1 / 5 : ℚ) ≤ 1) ∧
    ((1 / 10 : ℚ) / (1 - 1 / 5) ≤ 1) ∧
    (((((create_datasets shuffleId fsW "r" (1 / 5) (1 / 10)).1.file_paths.zip
        (create_datasets shuffleId fsW "r" (1 / 5) (1 / 10)).1.labels) ++
      ((create_datasets shuffleId fsW "r" (1 / 5) (1 / 10)).2.1.file_paths.zip
        (create_datasets shuffleId fsW "r" (1 / 5) (1 / 10)).2.1.labels)) ++
      ((create_datasets shuffleId fsW "r" (1 / 5) (1 / 10)).2.2.1.file_paths.zip
        (create_datasets shuffleId fsW "r" (1 / 5)
          (1 / 10)).2.2.1.labels)).Perm
      ((filePaths fsW "r").zip (fileLabels fsW "r")) ∧
    (create_datasets shuffleId fsW "r" (1 / 5)
        (1 / 10)).2.2.1.file_paths.length =
      (⌈(1 / 5 : ℚ) * ((filePaths fsW "r").length : ℚ)⌉).toNat ∧
    (create_datasets shuffleId fsW "r" (1 / 5)
        (1 / 10)).2.1.file_paths.length =
      (⌈((1 / 10 : ℚ) / (1 - 1 / 5)) *
        ((((filePaths fsW "r").length -
          (⌈(1 / 5 : ℚ) * ((filePaths fsW "r").length : ℚ)⌉).toNat) :
            ℕ) : ℚ)⌉).toNat) :=
  ⟨fun n => List.Perm.refl _, by norm_num, by norm_num,
    create_datasets_partition shuffleId fsW "r" (1 / 5) (1 / 10)
      (fun n => List.Perm.refl _) (by norm_num) (by norm_num)⟩
